import Mathlib

/-
Verification of build/android/gyp/prepare_resources.py: a shallow embedding of
the incremental resource-merging and identifier-generation pipeline, together
with theorems settling the specified properties. Machinery that lives in the
util modules (resource_utils, build_utils, manifest_utils, md5_check) is not
part of this repository checkout; where a property depends on it, the
corresponding definition is modelled from the specification and says so in its
doc comment. Everything else is translated directly from the source file.
-/

namespace PrepareRes

/-- Empty string constant, used where Python code supplies a default. -/
def noStr : String := ""

/-- Python truthiness of an optional string: `None` and the empty string are falsy. -/
def pyTruthy (o : Option String) : Bool := !(o.getD noStr).isEmpty

/-- Python `str.startswith`, modelled on the character list of the string. -/
def pyStartsWith (s pre : String) : Bool := pre.data.isPrefixOf s.data

/-- Python `str.endswith`, modelled on the character list of the string. -/
def pyEndsWith (s suffixStr : String) : Bool := suffixStr.data.isSuffixOf s.data

/-- POSIX `os.path.basename`: the characters after the last slash. -/
def basename (p : String) : String :=
  (p.data.foldl (fun acc c => if c = '/' then [] else acc ++ [c]) []).asString

/-- Path separator inserted by `os.path.join` on POSIX. -/
def sep : String := "/"

/-- Filesystem abstraction: `files d` lists the paths, relative to `d`, of the
files found under directory `d` (what `build_utils.FindInDirectory(d, '*')`
discovers), and `content p` is the content of the file at path `p`, `none`
when no file exists there. -/
structure FS where
  files : String → List String
  content : String → Option String

/-- Command-line options of prepare_resources.py (`_ParseArgs`, lines 32-87):
the options it registers itself plus the common ones contributed by
`resource_utils.ResourceArgsParser`; that parser is not under src/, so its
fields (r_text_in, include_resources, dependencies_res_zips,
extra_res_packages, extra_r_text_files) are modelled from the spec.
`sources` is the declared-sources list read from --res-sources-path and
`resource_dirs` the directory list derived from it. -/
structure Options where
  aapt_path : String
  shared_resources : Bool
  custom_package : Option String
  android_manifest : Option String
  resource_zip_out : Option String
  srcjar_out : Option String
  r_text_out : Option String
  strip_drawables : Bool
  r_text_in : Option String
  include_resources : List String
  dependencies_res_zips : List String
  extra_res_packages : List String
  extra_r_text_files : List String
  sources : List String
  resource_dirs : List String

/-- Modelled from the spec: `resource_utils.IterResourceFilesInDirectories`
(the Directory Walker of section 4.1), whose source is not under src/. For
each directory it yields one `(source path, directory-relative path)` pair per
discovered file, skipping files the ignore filter matches; the glob
interpretation of the colon-delimited ignore pattern is abstracted as a
Boolean predicate on the relative path. -/
def IterResourceFilesInDirectories (fs : FS) (dirs : List String)
    (ignore : String → Bool) : List (String × String) :=
  dirs.flatMap fun d =>
    ((fs.files d).filter fun rel => !(ignore rel)).map fun rel => (d ++ sep ++ rel, rel)

/-- Ignore predicate standing for the walker's default of no ignore pattern. -/
def noIgnore : String → Bool := fun _ => false

/-- Embedding of `_CheckAllFilesListed` (prepare_resources.py lines 90-102).
The files discovered under the resource directories are diffed against the
declared list; `Except.error missing` models printing every missing file and
calling `sys.exit(1)`, `Except.ok` models falling through. -/
def _CheckAllFilesListed (resource_files : List String) (fs : FS)
    (resource_dirs : List String) : Except (List String) Unit :=
  let missing := (IterResourceFilesInDirectories fs resource_dirs noIgnore).filterMap
    fun pr => if resource_files.contains pr.1 then none else some pr.1
  if missing.isEmpty then Except.ok () else Except.error missing

/-- Python dict assignment `d[k] = v` on a dict modelled as its
insertion-ordered item list: an existing key keeps its position and gets the
new value, a new key is appended. -/
def dictInsert (d : List (String × String)) (k v : String) : List (String × String) :=
  if d.any fun e => e.1 == k then d.map fun e => if e.1 == k then (k, v) else e
  else d ++ [(k, v)]

/-- Archive-relative path of one resource file, from prepare_resources.py
line 117: the directory ordinal, an underscore, the directory basename, a
slash, then the directory-relative path. -/
def archivePath (index : Nat) (resource_dir rel : String) : String :=
  Nat.repr index ++ "_" ++ basename resource_dir ++ sep ++ rel

/-- The `(archive path, source path)` pairs produced by the collection loop of
`_ZipResources` (prepare_resources.py lines 113-122), in insertion order. -/
def zipEntries (fs : FS) (resource_dirs : List String)
    (ignore : String → Bool) : List (String × String) :=
  resource_dirs.enum.flatMap fun e =>
    (IterResourceFilesInDirectories fs [e.2] ignore).map fun pr =>
      (archivePath e.1 e.2 pr.2, pr.1)

/-- Path marker of the temporary build location: entries whose source path
starts with it stay out of the provenance record (prepare_resources.py
line 120). -/
def tmpMarker : String := "/tmp"

/-- Result of `_ZipResources`: `files_to_zip` is what `build_utils.DoZip`
receives (the archive contents) and `files_to_zip_without_generated` is what
`resource_utils.CreateResourceInfoFile` writes to the provenance side-file. -/
structure ZipResult where
  files_to_zip : List (String × String)
  files_to_zip_without_generated : List (String × String)

/-- Embedding of `_ZipResources` (prepare_resources.py lines 105-132): one
pass over the discovered files, filling both dicts, the provenance one only
for sources outside the temporary location. -/
def _ZipResources (fs : FS) (resource_dirs : List String)
    (ignore : String → Bool) : ZipResult :=
  let dicts := (zipEntries fs resource_dirs ignore).foldl
    (fun acc e =>
      (dictInsert acc.1 e.1 e.2,
       if pyStartsWith e.2 tmpMarker then acc.2 else dictInsert acc.2 e.1 e.2))
    ([], [])
  { files_to_zip := dicts.1, files_to_zip_without_generated := dicts.2 }

/-- The aapt ignore pattern, from prepare_resources.py lines 23-30; the
identically-valued `resource_utils.AAPT_IGNORE_PATTERN` used at lines 159 and
197 is not under src/ and is modelled from the spec as the same list of
globs. -/
def AAPT_IGNORE_PATTERN : String := "*OWNERS:*.py:*.pyc:*~:.*:*.d.stamp"

/-- Modelled from the spec: `manifest_utils.EMPTY_ANDROID_MANIFEST_PATH`, the
placeholder manifest handed to the ID compiler (section 4.5); its source is
not under src/. -/
def EMPTY_ANDROID_MANIFEST_PATH : String := "build/android/AndroidManifest.xml"

/-- The flag that marks a search root on the aapt command line. -/
def sFlag : String := "-S"

/-- Ignore pattern handed to aapt and to the resource zip, extended with a
drawable glob when --strip-drawables is set (prepare_resources.py lines
159-161 and 197-199). -/
def rTxtIgnorePattern (strip_drawables : Bool) : String :=
  if strip_drawables then AAPT_IGNORE_PATTERN ++ ":*drawable*" else AAPT_IGNORE_PATTERN

/-- Embedding of the aapt command line built by `_GenerateRTxt`
(prepare_resources.py lines 146-181): fixed flags, `-I` pairs for
include_resources, output flags, then one `-S` pair per extracted dependency
subdirectory followed by one `-S` pair per own resource directory. -/
def packageCommand (o : Options) (dep_subdirs : List String)
    (gen_dir : String) : List String :=
  [o.aapt_path, "package", "-m", "-M", EMPTY_ANDROID_MANIFEST_PATH,
   "--no-crunch", "--auto-add-overlay", "--no-version-vectors"]
  ++ (o.include_resources.flatMap fun j => ["-I", j])
  ++ ["--output-text-symbols", gen_dir, "-J", gen_dir, "--ignore-assets",
      rTxtIgnorePattern o.strip_drawables]
  ++ (dep_subdirs.flatMap fun d => [sFlag, d])
  ++ (o.resource_dirs.flatMap fun d => [sFlag, d])

/-- The search roots of a command line: the argument following each `-S`
flag, in command-line order. -/
def collectSearchRoots : List String → List String
  | [] => []
  | [_] => []
  | x :: d :: rest =>
    if x = sFlag then d :: collectSearchRoots rest else collectSearchRoots (d :: rest)

/-- Modelled from the spec: the pieces of the run environment produced by
collaborators whose sources are not under src/ — the scratch paths of
`resource_utils.BuildContext`, the subdirectory list `resource_utils.ExtractDeps`
would return, the R.txt content the external aapt tool writes into the build
context (`none` when it writes no file, the empty-resource case of section
4.5), the package name `manifest_utils.GetPackage` would extract from
--android-manifest, and the denotation of a colon-delimited ignore glob
pattern as a predicate on relative paths. -/
structure RunEnv where
  fs : FS
  build_r_txt_path : String
  build_gen_dir : String
  dep_subdirs : List String
  aapt_r_txt : Option String
  manifest_package : Option String
  ignore_denote : String → String → Bool

/-- Package resolution of prepare_resources.py lines 226-230: the explicit
--custom-package override when truthy, else the manifest-declared package when
a manifest was supplied, else whatever the override held. -/
def resolvePackage (o : Options) (manifest_package : Option String) : Option String :=
  if !(pyTruthy o.custom_package) && pyTruthy o.android_manifest then manifest_package
  else o.custom_package

/-- Modelled from the spec: `resource_utils.CreateRJavaFiles` (section 4.6),
not under src/ — one generated source file per distinct package among the
target package and the extra per-dependency packages. The returned list holds
the packages for which a source file is emitted. -/
def CreateRJavaFiles (package : String) (extra_res_packages : List String) : List String :=
  (package :: extra_res_packages).eraseDups

/-- Observable outcome of one `_OnStaleMd5` run: the completeness-check
verdict (`none` when the declared list is empty and the check is skipped),
whether dependency extraction and the external aapt tool ran and with which
command, the identifier-table path used downstream and the content found or
created there, the content copied to --r-text-out (`none` when not
requested), the packages for which generated source files land in the
--srcjar-out archive (`none` when not requested), the identifier table the
source generation read, and the produced resource archive. -/
structure StaleResult where
  check_result : Option (Except (List String) Unit)
  extract_called : Bool
  aapt_called : Bool
  aapt_command : Option (List String)
  r_txt_path : String
  r_txt_content : Option String
  r_text_out_content : Option (Option String)
  srcjar_packages : Option (List String)
  srcjar_r_txt : Option String
  resource_zip : Option ZipResult

/-- Embedding of `_OnStaleMd5` (prepare_resources.py lines 203-254). With
--r-text-in the supplied table is used as-is; otherwise dependencies are
extracted, aapt runs, and a missing R.txt is replaced by an empty file
(`build_utils.Touch`). The srcjar branch resolves the package and only calls
`CreateRJavaFiles` when one was found; the srcjar is zipped either way. -/
def _OnStaleMd5 (o : Options) (env : RunEnv) : StaleResult :=
  let check := if o.sources.isEmpty then none
    else some (_CheckAllFilesListed o.sources env.fs o.resource_dirs)
  let useRIn := pyTruthy o.r_text_in
  let r_txt_path := if useRIn then o.r_text_in.getD noStr else env.build_r_txt_path
  let r_txt_content := if useRIn then env.fs.content (o.r_text_in.getD noStr)
    else some (env.aapt_r_txt.getD noStr)
  let package := resolvePackage o env.manifest_package
  { check_result := check
    extract_called := !useRIn
    aapt_called := !useRIn
    aapt_command := if useRIn then none
      else some (packageCommand o env.dep_subdirs env.build_gen_dir)
    r_txt_path := r_txt_path
    r_txt_content := r_txt_content
    r_text_out_content := if pyTruthy o.r_text_out then some r_txt_content else none
    srcjar_packages := if pyTruthy o.srcjar_out then
        some (if pyTruthy package then
          CreateRJavaFiles (package.getD noStr) o.extra_res_packages else [])
      else none
    srcjar_r_txt := if pyTruthy o.srcjar_out && pyTruthy package then some r_txt_path
      else none
    resource_zip := if pyTruthy o.resource_zip_out then
        some (_ZipResources env.fs o.resource_dirs
          (env.ignore_denote (rTxtIgnorePattern o.strip_drawables)))
      else none }

/-- Stringification of an optional value as `md5_check` sees it inside
input_strings; Python renders the absent value as `None`. -/
def optionStr : Option String → String
  | none => "None"
  | some s => s

/-- Stringification of a boolean as `md5_check` sees it inside input_strings. -/
def boolStr : Bool → String
  | true => "True"
  | false => "False"

/-- Python truthiness filter over a list of optional strings,
`[x for x in l if x]`. -/
def pyFilterTruthy (l : List (Option String)) : List String :=
  l.filterMap fun x => if pyTruthy x then some (x.getD noStr) else none

/-- The output paths main() declares to the staleness gate
(prepare_resources.py lines 263-268). -/
def output_paths (o : Options) : List String :=
  pyFilterTruthy [o.resource_zip_out, o.r_text_out, o.srcjar_out]

/-- The fixed members of input_strings (prepare_resources.py lines 272-276). -/
def base_input_strings (o : Options) : List String :=
  o.extra_res_packages ++
    [optionStr o.custom_package, boolStr o.shared_resources, boolStr o.strip_drawables]

/-- The members of input_paths gathered before the resource-file loop
(prepare_resources.py lines 278-285). -/
def base_input_paths (o : Options) : List String :=
  pyFilterTruthy ([some o.aapt_path, o.android_manifest] ++ o.include_resources.map some)
  ++ o.dependencies_res_zips ++ o.extra_r_text_files

/-- One record per file found under a resource directory: full path and
directory-relative path (the loop of prepare_resources.py lines 291-299 over
`build_utils.FindInDirectory` and `os.path.relpath`). -/
def resourceFileRecords (o : Options) (fs : FS) : List (String × String) :=
  o.resource_dirs.flatMap fun d => (fs.files d).map fun rel => (d ++ sep ++ rel, rel)

/-- The suffix `os.path.join('empty', '.keep')` of placeholder files that stay
out of input_paths and the depfile (prepare_resources.py lines 293-296). -/
def keepSuffix : String := "empty/.keep"

/-- Resource files appended to both input_paths and depfile_deps: every
discovered file except the empty-.keep placeholders. -/
def resource_dep_paths (o : Options) (fs : FS) : List String :=
  (resourceFileRecords o fs).filterMap fun r =>
    if pyEndsWith r.1 keepSuffix then none else some r.1

/-- Directory-relative names of every discovered resource file, placeholder
files included (prepare_resources.py line 299). -/
def resource_names (o : Options) (fs : FS) : List String :=
  (resourceFileRecords o fs).map fun r => r.2

/-- Boolean order on strings used to model Python `sorted`. -/
def strLe (a b : String) : Bool := decide (a ≤ b)

/-- The full input_paths handed to the staleness gate (prepare_resources.py
lines 278-298). -/
def input_paths (o : Options) (fs : FS) : List String :=
  base_input_paths o ++ resource_dep_paths o fs

/-- The depfile_deps handed to the staleness gate (prepare_resources.py lines
289-298): exactly the non-placeholder resource files. -/
def depfile_deps (o : Options) (fs : FS) : List String :=
  resource_dep_paths o fs

/-- The full input_strings handed to the staleness gate (prepare_resources.py
lines 272-303): the fixed strings followed by the sorted relative names of
every resource file. -/
def input_strings (o : Options) (fs : FS) : List String :=
  base_input_strings o ++ (resource_names o fs).mergeSort strLe

/-- Numeric value of a decimal digit character, a left inverse of
`Nat.digitChar` below ten; proof machinery for ordinal prefixes. -/
def digitVal (c : Char) : Nat :=
  if c = '0' then 0 else if c = '1' then 1 else if c = '2' then 2
  else if c = '3' then 3 else if c = '4' then 4 else if c = '5' then 5
  else if c = '6' then 6 else if c = '7' then 7 else if c = '8' then 8 else 9

/-- Decimal evaluation of a digit string, most significant digit first. -/
def evalDigits (l : List Char) : Nat :=
  l.foldl (fun a c => 10 * a + digitVal c) 0

/-- Options record with every optional input absent, used as the base of the
concrete scenarios below. -/
def baseOptions : Options where
  aapt_path := "aapt"
  shared_resources := false
  custom_package := none
  android_manifest := none
  resource_zip_out := none
  srcjar_out := none
  r_text_out := none
  strip_drawables := false
  r_text_in := none
  include_resources := []
  dependencies_res_zips := []
  extra_res_packages := []
  extra_r_text_files := []
  sources := []
  resource_dirs := []

/-- Filesystem with no files at all. -/
def emptyFS : FS where
  files := fun _ => []
  content := fun _ => none

/-- Run environment over a given filesystem with no dependencies, no
aapt-produced table and no manifest package. -/
def plainEnv (fs : FS) : RunEnv where
  fs := fs
  build_r_txt_path := "gen/R.txt"
  build_gen_dir := "gen"
  dep_subdirs := []
  aapt_r_txt := none
  manifest_package := none
  ignore_denote := fun _ _ => false

/-- Scenario for the missing-package claim: --srcjar-out requested, two
dependency packages, no --custom-package and no --android-manifest. -/
def c1opts : Options :=
  { baseOptions with
      srcjar_out := some "pkg.srcjar"
      extra_res_packages := ["p1", "p2"]
      extra_r_text_files := ["p1/R.txt", "p2/R.txt"]
      r_text_in := some "in.txt" }

/-- Scenario for the fingerprint claim: a prebuilt table is supplied via
--r-text-in and copied to --r-text-out. -/
def c2opts : Options :=
  { baseOptions with
      r_text_in := some "r_in.txt"
      r_text_out := some "r_out.txt" }

/-- Filesystem of the first fingerprint run: the prebuilt table holds idsA. -/
def c2fs1 : FS where
  files := fun _ => []
  content := fun p => if p = "r_in.txt" then some "idsA" else none

/-- Filesystem of the second fingerprint run: the prebuilt table holds idsB. -/
def c2fs2 : FS where
  files := fun _ => []
  content := fun p => if p = "r_in.txt" then some "idsB" else none

/-- Two-directory overlay scenario: roots A and B each hold a foo.xml, with
contents v1 and v2. -/
def c3fs : FS where
  files := fun d => if d = "A" ∨ d = "B" then ["foo.xml"] else []
  content := fun p =>
    if p = "A/foo.xml" then some "v1"
    else if p = "B/foo.xml" then some "v2" else none

/-- Options with a single resource directory, for the name-fingerprinting and
placeholder-file scenarios. -/
def c4opts : Options := { baseOptions with resource_dirs := ["res"] }

/-- Filesystem with two ordinarily named resource files under res. -/
def c4fs : FS where
  files := fun d => if d = "res" then ["a.xml", "b.xml"] else []
  content := fun _ => none

/-- Filesystem for the completeness check: res holds a declared and an
undeclared file. -/
def c5fs : FS where
  files := fun d => if d = "res" then ["a.xml", "b.xml"] else []
  content := fun _ => none

/-- Scenario for the r-text-in short circuit: table supplied, all three
outputs requested, explicit package. -/
def c9opts : Options :=
  { baseOptions with
      r_text_in := some "table.txt"
      r_text_out := some "out/R.txt"
      srcjar_out := some "out.srcjar"
      custom_package := some "org.pkg" }

/-- Filesystem of the r-text-in scenario: the supplied table holds T. -/
def c9fs : FS where
  files := fun _ => []
  content := fun p => if p = "table.txt" then some "T" else none

/-- Filesystem for the placeholder-file scenario: res holds an empty-.keep
placeholder and a real resource file. -/
def c10fs : FS where
  files := fun d => if d = "res" then ["empty/.keep", "values/s.xml"] else []
  content := fun _ => none

/-- Filesystem for the provenance scenario: a source-backed root A and a
generated root under the temporary location. -/
def c8fs : FS where
  files := fun d =>
    if d = "A" then ["foo.xml"]
    else if d = "/tmp/gen" then ["gen.xml"] else []
  content := fun _ => none

/-- Options for the search-root ordering scenario: one include archive and one
own resource directory. -/
def c7opts : Options :=
  { baseOptions with include_resources := ["inc.zip"], resource_dirs := ["r1"] }

/-- C5: for every declared-sources list and resource-directory set, the
completeness check succeeds when every discovered file is declared; when some
discovered file is undeclared it fails (modelled by `Except.error`, standing
for the non-zero exit) and the reported list contains every undeclared
discovered file — all of them — and nothing else. -/
theorem c5_completeness_check (declared : List String) (fs : FS) (dirs : List String) :
    ((∀ pr ∈ IterResourceFilesInDirectories fs dirs noIgnore,
        declared.contains pr.1 = true) →
      _CheckAllFilesListed declared fs dirs = Except.ok ()) ∧
    (∀ p, (∃ pr ∈ IterResourceFilesInDirectories fs dirs noIgnore, pr.1 = p) →
      declared.contains p = false →
      ∃ missing, _CheckAllFilesListed declared fs dirs = Except.error missing ∧
        p ∈ missing) ∧
    (∀ missing, _CheckAllFilesListed declared fs dirs = Except.error missing →
      missing ≠ [] ∧ ∀ p ∈ missing,
        (∃ pr ∈ IterResourceFilesInDirectories fs dirs noIgnore, pr.1 = p) ∧
          declared.contains p = false) := by
  set L := IterResourceFilesInDirectories fs dirs noIgnore with hL
  set f : String × String → Option String :=
    fun pr => if declared.contains pr.1 then none else some pr.1 with hf
  have hfil : _CheckAllFilesListed declared fs dirs =
      if (L.filterMap f).isEmpty then Except.ok () else Except.error (L.filterMap f) := rfl
  refine ⟨?_, ?_, ?_⟩
  · intro hall
    have hnil : L.filterMap f = [] := by
      refine List.filterMap_eq_nil_iff.mpr ?_
      intro pr hpr
      simp only [hf]
      rw [hall pr hpr]
      rfl
    rw [hfil, hnil]
    rfl
  · intro p hdisc hundecl
    rcases hdisc with ⟨pr, hpr, hfst⟩
    have hfp : f pr = some p := by
      simp only [hf]
      rw [hfst, hundecl]
      rfl
    have hmem : p ∈ L.filterMap f := List.mem_filterMap.mpr ⟨pr, hpr, hfp⟩
    have hne : (L.filterMap f).isEmpty = false := by
      cases hm : L.filterMap f with
      | nil => rw [hm] at hmem; cases hmem
      | cons a l => rfl
    refine ⟨L.filterMap f, ?_, hmem⟩
    rw [hfil, hne]
    rfl
  · intro missing herr
    rw [hfil] at herr
    cases hemp : (L.filterMap f).isEmpty with
    | true => rw [hemp] at herr; simp at herr
    | false =>
      rw [hemp] at herr
      simp only [Bool.false_eq_true, if_false, Except.error.injEq] at herr
      subst herr
      constructor
      · intro hnil
        rw [hnil] at hemp
        simp at hemp
      · intro p hp
        rcases List.mem_filterMap.mp hp with ⟨pr, hpr, hfp⟩
        simp only [hf] at hfp
        cases hc : declared.contains pr.1 with
        | true => rw [hc] at hfp; simp at hfp
        | false =>
          rw [hc] at hfp
          have hpp : pr.1 = p := by simpa using hfp
          exact ⟨⟨pr, hpr, hpp⟩, hpp ▸ hc⟩

/-- Witness for C5: with res/a.xml declared but res/b.xml present on disk, the
check fails and names res/b.xml. -/
theorem c5_witness :
    ∃ missing, _CheckAllFilesListed ["res/a.xml"] c5fs ["res"] = Except.error missing ∧
      "res/b.xml" ∈ missing :=
  (c5_completeness_check ["res/a.xml"] c5fs ["res"]).2.1 "res/b.xml"
    (by decide) (by decide)

/-- C6: when no prebuilt table is supplied and the external ID compiler
produces no identifier-table file, the pipeline still runs the compiler, then
creates an empty placeholder at the expected build-context path, so the table
path downstream steps consume names an existing (empty) file, and the
--r-text-out copy receives that empty content. -/
theorem c6_placeholder_r_txt (o : Options) (env : RunEnv)
    (hin : pyTruthy o.r_text_in = false) (haapt : env.aapt_r_txt = none) :
    (_OnStaleMd5 o env).aapt_called = true ∧
    (_OnStaleMd5 o env).r_txt_path = env.build_r_txt_path ∧
    (_OnStaleMd5 o env).r_txt_content = some noStr ∧
    (pyTruthy o.r_text_out = true →
      (_OnStaleMd5 o env).r_text_out_content = some (some noStr)) := by
  refine ⟨by simp [_OnStaleMd5, hin], by simp [_OnStaleMd5, hin],
    by simp [_OnStaleMd5, hin, haapt], ?_⟩
  intro hout
  simp [_OnStaleMd5, hin, haapt, hout]

/-- Witness for C6: the empty scenario yields an existing empty table. -/
theorem c6_witness :
    (_OnStaleMd5 baseOptions (plainEnv emptyFS)).aapt_called = true ∧
    (_OnStaleMd5 baseOptions (plainEnv emptyFS)).r_txt_path =
      (plainEnv emptyFS).build_r_txt_path ∧
    (_OnStaleMd5 baseOptions (plainEnv emptyFS)).r_txt_content = some noStr ∧
    (pyTruthy baseOptions.r_text_out = true →
      (_OnStaleMd5 baseOptions (plainEnv emptyFS)).r_text_out_content =
        some (some noStr)) :=
  c6_placeholder_r_txt baseOptions (plainEnv emptyFS) (by decide) rfl

/-- C9: with a non-empty --r-text-in, the run extracts no dependency archives,
never invokes the external ID compiler, and the supplied table path is the one
used downstream: its content is what --r-text-out receives, and it is the
table handed to source generation. -/
theorem c9_r_text_in_short_circuit (o : Options) (env : RunEnv) (p : String)
    (hp : o.r_text_in = some p) (hne : p ≠ noStr) :
    (_OnStaleMd5 o env).extract_called = false ∧
    (_OnStaleMd5 o env).aapt_called = false ∧
    (_OnStaleMd5 o env).aapt_command = none ∧
    (_OnStaleMd5 o env).r_txt_path = p ∧
    (_OnStaleMd5 o env).r_txt_content = env.fs.content p ∧
    (pyTruthy o.r_text_out = true →
      (_OnStaleMd5 o env).r_text_out_content = some (env.fs.content p)) ∧
    ((pyTruthy o.srcjar_out && pyTruthy (resolvePackage o env.manifest_package)) = true →
      (_OnStaleMd5 o env).srcjar_r_txt = some p) := by
  have ht : pyTruthy (some p) = true := by
    have h1 : ¬ p.isEmpty = true := fun h => hne ((String.isEmpty_iff p).mp h)
    have h2 : p.isEmpty = false := Bool.eq_false_iff.mpr h1
    simp [pyTruthy, h2]
  refine ⟨by simp [_OnStaleMd5, hp, ht], by simp [_OnStaleMd5, hp, ht],
    by simp [_OnStaleMd5, hp, ht], by simp [_OnStaleMd5, hp, ht],
    by simp [_OnStaleMd5, hp, ht], ?_, ?_⟩
  · intro hout
    simp [_OnStaleMd5, hp, ht, hout]
  · intro hsp
    rw [Bool.and_eq_true] at hsp
    simp [_OnStaleMd5, hp, ht, hsp.1, hsp.2]

/-- Witness for C9: the concrete r-text-in scenario short-circuits. -/
theorem c9_witness :
    (_OnStaleMd5 c9opts (plainEnv c9fs)).extract_called = false ∧
    (_OnStaleMd5 c9opts (plainEnv c9fs)).aapt_called = false ∧
    (_OnStaleMd5 c9opts (plainEnv c9fs)).aapt_command = none ∧
    (_OnStaleMd5 c9opts (plainEnv c9fs)).r_txt_path = "table.txt" ∧
    (_OnStaleMd5 c9opts (plainEnv c9fs)).r_txt_content = c9fs.content "table.txt" ∧
    (pyTruthy c9opts.r_text_out = true →
      (_OnStaleMd5 c9opts (plainEnv c9fs)).r_text_out_content =
        some (c9fs.content "table.txt")) ∧
    ((pyTruthy c9opts.srcjar_out &&
        pyTruthy (resolvePackage c9opts (plainEnv c9fs).manifest_package)) = true →
      (_OnStaleMd5 c9opts (plainEnv c9fs)).srcjar_r_txt = some "table.txt") :=
  c9_r_text_in_short_circuit c9opts (plainEnv c9fs) "table.txt" rfl (by decide)

/-- C1 counterexample: with --srcjar-out requested, two dependency packages
and tables supplied, but no --custom-package and no --android-manifest, the
run emits no generated source file for any package — in particular none for
dependency package p1 — refuting the claim that each dependency package still
receives one. -/
theorem c1_counterexample :
    (_OnStaleMd5 c1opts (plainEnv emptyFS)).srcjar_packages = some [] ∧
    c1opts.extra_res_packages = ["p1", "p2"] ∧
    "p1" ∉ ((_OnStaleMd5 c1opts (plainEnv emptyFS)).srcjar_packages.getD []) := by
  refine ⟨by decide, rfl, by decide⟩

/-- C1 as amended: when no target package can be determined, the `if package`
guard of prepare_resources.py line 234 skips `CreateRJavaFiles` entirely, so
no generated source file is emitted for any package — neither the target's
own nor the dependencies' — and the source archive is zipped empty. -/
theorem c1_no_package_suppresses_all_sources (o : Options) (env : RunEnv)
    (hpkg : pyTruthy (resolvePackage o env.manifest_package) = false)
    (hsj : pyTruthy o.srcjar_out = true) :
    (_OnStaleMd5 o env).srcjar_packages = some [] := by
  simp [_OnStaleMd5, hpkg, hsj]

/-- Witness for the amended C1: the concrete no-package scenario. -/
theorem c1_amended_witness :
    (_OnStaleMd5 c1opts (plainEnv emptyFS)).srcjar_packages = some [] :=
  c1_no_package_suppresses_all_sources c1opts (plainEnv emptyFS) (by decide) (by decide)

/-- Helper: every path the resource-file loop contributes fails the
empty-.keep suffix test. -/
theorem resource_dep_paths_no_keep (o : Options) (fs : FS) :
    ∀ p ∈ resource_dep_paths o fs, pyEndsWith p keepSuffix = false := by
  intro p hp
  rcases List.mem_filterMap.mp hp with ⟨r, hr, hif⟩
  cases hk : pyEndsWith r.1 keepSuffix with
  | true => rw [hk] at hif; simp at hif
  | false =>
    rw [hk] at hif
    have hrp : r.1 = p := by simpa using hif
    rw [← hrp]
    exact hk

/-- Helper: the relative name of any discovered resource file is a member of
input_strings. -/
theorem rel_mem_input_strings (o : Options) (fs : FS) (d rel : String)
    (hd : d ∈ o.resource_dirs) (hrel : rel ∈ fs.files d) :
    rel ∈ input_strings o fs := by
  have h1 : rel ∈ resource_names o fs := by
    unfold resource_names resourceFileRecords
    rw [List.mem_map]
    refine ⟨(d ++ sep ++ rel, rel), ?_, rfl⟩
    rw [List.mem_flatMap]
    exact ⟨d, hd, List.mem_map.mpr ⟨rel, hrel, rfl⟩⟩
  have h2 : rel ∈ (resource_names o fs).mergeSort strLe :=
    (List.mergeSort_perm (resource_names o fs) strLe).mem_iff.mpr h1
  exact List.mem_append_right _ h2

/-- Helper: a discovered file that does not end in the placeholder suffix is
contributed to resource_dep_paths. -/
theorem mem_resource_dep_paths (o : Options) (fs : FS) (d rel : String)
    (hd : d ∈ o.resource_dirs) (hrel : rel ∈ fs.files d)
    (hk : pyEndsWith (d ++ sep ++ rel) keepSuffix = false) :
    (d ++ sep ++ rel) ∈ resource_dep_paths o fs := by
  unfold resource_dep_paths
  rw [List.mem_filterMap]
  refine ⟨(d ++ sep ++ rel, rel), ?_, ?_⟩
  · unfold resourceFileRecords
    rw [List.mem_flatMap]
    exact ⟨d, hd, List.mem_map.mpr ⟨rel, hrel, rfl⟩⟩
  · show (if pyEndsWith (d ++ sep ++ rel) keepSuffix then none
      else some (d ++ sep ++ rel)) = some (d ++ sep ++ rel)
    rw [hk]
    rfl

/-- C10: a discovered resource file whose path ends in empty/.keep is
excluded from the loop's input-path contribution and from the
build-dependency record, while its relative name still reaches
input_strings; every other discovered file lands in both input_paths and
depfile_deps (and its name in input_strings too). -/
theorem c10_keep_file_exclusion (o : Options) (fs : FS) :
    input_paths o fs = base_input_paths o ++ resource_dep_paths o fs ∧
    depfile_deps o fs = resource_dep_paths o fs ∧
    (∀ p ∈ resource_dep_paths o fs, pyEndsWith p keepSuffix = false) ∧
    (∀ d ∈ o.resource_dirs, ∀ rel ∈ fs.files d,
      rel ∈ input_strings o fs ∧
      (pyEndsWith (d ++ sep ++ rel) keepSuffix = true →
        (d ++ sep ++ rel) ∉ resource_dep_paths o fs ∧
        (d ++ sep ++ rel) ∉ depfile_deps o fs ∧
        ((d ++ sep ++ rel) ∉ base_input_paths o →
          (d ++ sep ++ rel) ∉ input_paths o fs)) ∧
      (pyEndsWith (d ++ sep ++ rel) keepSuffix = false →
        (d ++ sep ++ rel) ∈ input_paths o fs ∧
        (d ++ sep ++ rel) ∈ depfile_deps o fs)) := by
  refine ⟨rfl, rfl, resource_dep_paths_no_keep o fs, ?_⟩
  intro d hd rel hrel
  refine ⟨rel_mem_input_strings o fs d rel hd hrel, ?_, ?_⟩
  · intro hk
    have hnot : (d ++ sep ++ rel) ∉ resource_dep_paths o fs := by
      intro hmem
      have hfalse := resource_dep_paths_no_keep o fs _ hmem
      rw [hk] at hfalse
      simp at hfalse
    refine ⟨hnot, hnot, ?_⟩
    intro hbase hmem
    rcases List.mem_append.mp hmem with h | h
    · exact hbase h
    · exact hnot h
  · intro hk
    have hmem := mem_resource_dep_paths o fs d rel hd hrel hk
    exact ⟨List.mem_append_right _ hmem, hmem⟩

/-- Witness for C10: under res the placeholder res/empty/.keep is excluded
from paths and depfile yet named in input_strings, while res/values/s.xml is
included everywhere. -/
theorem c10_witness :
    ("empty/.keep" ∈ input_strings c4opts c10fs ∧
      (pyEndsWith ("res" ++ sep ++ "empty/.keep") keepSuffix = true →
        ("res" ++ sep ++ "empty/.keep") ∉ resource_dep_paths c4opts c10fs ∧
        ("res" ++ sep ++ "empty/.keep") ∉ depfile_deps c4opts c10fs ∧
        (("res" ++ sep ++ "empty/.keep") ∉ base_input_paths c4opts →
          ("res" ++ sep ++ "empty/.keep") ∉ input_paths c4opts c10fs)) ∧
      (pyEndsWith ("res" ++ sep ++ "empty/.keep") keepSuffix = false →
        ("res" ++ sep ++ "empty/.keep") ∈ input_paths c4opts c10fs ∧
        ("res" ++ sep ++ "empty/.keep") ∈ depfile_deps c4opts c10fs)) ∧
    ("values/s.xml" ∈ input_strings c4opts c10fs ∧
      (pyEndsWith ("res" ++ sep ++ "values/s.xml") keepSuffix = true →
        ("res" ++ sep ++ "values/s.xml") ∉ resource_dep_paths c4opts c10fs ∧
        ("res" ++ sep ++ "values/s.xml") ∉ depfile_deps c4opts c10fs ∧
        (("res" ++ sep ++ "values/s.xml") ∉ base_input_paths c4opts →
          ("res" ++ sep ++ "values/s.xml") ∉ input_paths c4opts c10fs)) ∧
      (pyEndsWith ("res" ++ sep ++ "values/s.xml") keepSuffix = false →
        ("res" ++ sep ++ "values/s.xml") ∈ input_paths c4opts c10fs ∧
        ("res" ++ sep ++ "values/s.xml") ∈ depfile_deps c4opts c10fs)) :=
  ⟨(c10_keep_file_exclusion c4opts c10fs).2.2.2 "res" (by decide)
      "empty/.keep" (by decide),
   (c10_keep_file_exclusion c4opts c10fs).2.2.2 "res" (by decide)
      "values/s.xml" (by decide)⟩

/-- Helper: transitivity of the boolean string order used for sorting. -/
theorem strLe_trans : ∀ a b c : String,
    strLe a b = true → strLe b c = true → strLe a c = true := by
  intro a b c h1 h2
  simp only [strLe, decide_eq_true_eq] at h1 h2 ⊢
  exact le_trans h1 h2

/-- Helper: totality of the boolean string order used for sorting. -/
theorem strLe_total : ∀ a b : String, (strLe a b || strLe b a) = true := by
  intro a b
  simp only [strLe, Bool.or_eq_true, decide_eq_true_eq]
  exact le_total a b

/-- C4: input_strings is the fixed block followed by the sorted relative
names; the name block is sorted, the relative name of every discovered
resource file is a member, and two filesystems that fingerprint to equal
input_strings must carry the same multiset of relative names — so renaming a
file (which changes the name multiset) changes the fingerprint even with
contents unchanged. -/
theorem c4_names_fingerprinted (o : Options) (fs : FS) :
    input_strings o fs =
      base_input_strings o ++ (resource_names o fs).mergeSort strLe ∧
    List.Pairwise (fun a b => strLe a b = true)
      ((resource_names o fs).mergeSort strLe) ∧
    (∀ d ∈ o.resource_dirs, ∀ rel ∈ fs.files d, rel ∈ input_strings o fs) ∧
    (∀ fs2 : FS, input_strings o fs = input_strings o fs2 →
      (resource_names o fs).Perm (resource_names o fs2)) := by
  refine ⟨rfl, ?_, ?_, ?_⟩
  · exact List.sorted_mergeSort strLe_trans strLe_total (resource_names o fs)
  · intro d hd rel hrel
    exact rel_mem_input_strings o fs d rel hd hrel
  · intro fs2 heq
    unfold input_strings at heq
    have h2 := List.append_cancel_left heq
    have p1 := List.mergeSort_perm (resource_names o fs) strLe
    have p2 := List.mergeSort_perm (resource_names o fs2) strLe
    rw [h2] at p1
    exact p1.symm.trans p2

/-- Witness for C4: the relative name a.xml of the file res/a.xml is a member
of input_strings, and equal input_strings force equal name multisets. -/
theorem c4_witness :
    "a.xml" ∈ input_strings c4opts c4fs ∧
    (resource_names c4opts c4fs).Perm (resource_names c4opts c4fs) :=
  ⟨(c4_names_fingerprinted c4opts c4fs).2.2.1 "res" (by decide) "a.xml" (by decide),
   (c4_names_fingerprinted c4opts c4fs).2.2.2 c4fs rfl⟩

/-- Helper: a run of `-S` pairs contributes exactly its payload directories
to the collected search roots. -/
theorem collect_pairs (ds tail : List String) :
    collectSearchRoots ((ds.flatMap fun d => [sFlag, d]) ++ tail) =
      ds ++ collectSearchRoots tail := by
  induction ds with
  | nil => simp
  | cons d ds ih =>
    simp only [List.flatMap_cons, List.cons_append, List.append_assoc]
    show (if sFlag = sFlag then
        d :: collectSearchRoots ((ds.flatMap fun d => [sFlag, d]) ++ tail)
      else collectSearchRoots (d :: ((ds.flatMap fun d => [sFlag, d]) ++ tail))) = _
    rw [if_pos rfl, ih]

/-- Helper: command-line members that are not the `-S` flag contribute no
search roots. -/
theorem collect_skip (l tail : List String) (h : ∀ x ∈ l, x ≠ sFlag) :
    collectSearchRoots (l ++ tail) = collectSearchRoots tail := by
  induction l with
  | nil => rfl
  | cons x l ih =>
    have hx : x ≠ sFlag := h x (List.mem_cons_self x l)
    have hrest : ∀ y ∈ l, y ≠ sFlag := fun y hy => h y (List.mem_cons_of_mem x hy)
    rw [List.cons_append]
    cases hlt : l ++ tail with
    | nil =>
      have hpair := List.append_eq_nil.mp hlt
      rw [hpair.2]
      rfl
    | cons y rest =>
      show (if x = sFlag then y :: collectSearchRoots rest
        else collectSearchRoots (y :: rest)) = _
      rw [if_neg hx, ← hlt]
      exact ih hrest

/-- C7: on the aapt command line every extracted dependency subdirectory
appears as a `-S` search root before every one of the target's own resource
directories: the collected search roots are exactly the dependency
subdirectories followed by the own directories, in order. -/
theorem c7_dep_dirs_first (o : Options) (dep_subdirs : List String) (gen_dir : String)
    (h1 : o.aapt_path ≠ sFlag) (h2 : ∀ j ∈ o.include_resources, j ≠ sFlag)
    (h3 : gen_dir ≠ sFlag) :
    collectSearchRoots (packageCommand o dep_subdirs gen_dir) =
      dep_subdirs ++ o.resource_dirs := by
  have hpat : rTxtIgnorePattern o.strip_drawables ≠ sFlag := by
    cases hs : o.strip_drawables <;> simp [rTxtIgnorePattern] <;> decide
  have hclean : ∀ x ∈ ([o.aapt_path, "package", "-m", "-M",
      EMPTY_ANDROID_MANIFEST_PATH, "--no-crunch", "--auto-add-overlay",
      "--no-version-vectors"]
      ++ (o.include_resources.flatMap fun j => ["-I", j])
      ++ ["--output-text-symbols", gen_dir, "-J", gen_dir, "--ignore-assets",
          rTxtIgnorePattern o.strip_drawables]), x ≠ sFlag := by
    intro x hx
    simp only [List.mem_append, List.mem_cons, List.mem_flatMap,
      List.not_mem_nil, or_false] at hx
    rcases hx with (hx | hx) | hx
    · rcases hx with rfl | rfl | rfl | rfl | rfl | rfl | rfl | rfl
      · exact h1
      all_goals decide
    · rcases hx with ⟨j, hj, hxj⟩
      rcases hxj with rfl | rfl
      · decide
      · exact h2 _ hj
    · rcases hx with rfl | rfl | rfl | rfl | rfl | rfl
      · decide
      · exact h3
      · decide
      · exact h3
      · decide
      · exact hpat
  unfold packageCommand
  rw [List.append_assoc]
  rw [collect_skip _ _ hclean]
  rw [collect_pairs]
  have hE : collectSearchRoots (o.resource_dirs.flatMap fun d => [sFlag, d]) =
      o.resource_dirs := by
    have h := collect_pairs o.resource_dirs []
    have h0 : collectSearchRoots ([] : List String) = [] := rfl
    rw [h0, List.append_nil, List.append_nil] at h
    exact h
  rw [hE]

/-- Witness for C7: with dependencies d1, d2 and own directory r1 the search
roots come out dependency-first. -/
theorem c7_witness :
    collectSearchRoots (packageCommand c7opts ["d1", "d2"] "gen") =
      ["d1", "d2", "r1"] :=
  c7_dep_dirs_first c7opts ["d1", "d2"] "gen" (by decide) (by decide) (by decide)

/-- C2 is violated by the code: two runs whose fingerprint-set members —
input_paths, the contents at each of them, and input_strings — are all equal
still produce different --r-text-out contents, because the --r-text-in table
is read by the action but is a member of neither input_paths nor
input_strings (prepare_resources.py lines 272-303 never mention r_text_in). -/
theorem c2_r_text_in_escapes_fingerprint :
    input_paths c2opts c2fs1 = input_paths c2opts c2fs2 ∧
    (∀ p ∈ input_paths c2opts c2fs1, c2fs1.content p = c2fs2.content p) ∧
    input_strings c2opts c2fs1 = input_strings c2opts c2fs2 ∧
    (_OnStaleMd5 c2opts (plainEnv c2fs1)).r_text_out_content ≠
      (_OnStaleMd5 c2opts (plainEnv c2fs2)).r_text_out_content := by
  refine ⟨rfl, by decide, rfl, by decide⟩

/-- Helper: decimal (indeed hexadecimal) digit characters are never an
underscore. -/
theorem digitChar_ne_underscore : ∀ d < 16, Nat.digitChar d ≠ '_' := by decide

/-- Helper: the digit accumulator of `Nat.toDigitsCore` is simply appended to
the produced digits. -/
theorem toDigitsCore_acc (b : Nat) : ∀ (fuel n : Nat) (acc : List Char),
    Nat.toDigitsCore b fuel n acc = Nat.toDigitsCore b fuel n [] ++ acc := by
  intro fuel
  induction fuel with
  | zero => intro n acc; rfl
  | succ fuel ih =>
    intro n acc
    simp only [Nat.toDigitsCore]
    by_cases h : n / b = 0
    · simp [h]
    · rw [if_neg h, if_neg h, ih (n / b) (Nat.digitChar (n % b) :: acc),
        ih (n / b) [Nat.digitChar (n % b)]]
      simp

/-- Helper: every character `Nat.toDigitsCore` produces over base ten is a
digit, hence not an underscore. -/
theorem toDigitsCore_no_underscore : ∀ (fuel n : Nat) (acc : List Char),
    (∀ c ∈ acc, c ≠ '_') → ∀ c ∈ Nat.toDigitsCore 10 fuel n acc, c ≠ '_' := by
  intro fuel
  induction fuel with
  | zero =>
    intro n acc hacc c hc
    exact hacc c hc
  | succ fuel ih =>
    intro n acc hacc c hc
    have hb : n % 10 < 16 :=
      lt_of_lt_of_le (Nat.mod_lt n (by norm_num)) (by norm_num)
    have hd := digitChar_ne_underscore (n % 10) hb
    simp only [Nat.toDigitsCore] at hc
    by_cases h : n / 10 = 0
    · rw [if_pos h] at hc
      rcases List.mem_cons.mp hc with rfl | hm
      · exact hd
      · exact hacc c hm
    · rw [if_neg h] at hc
      refine ih (n / 10) (Nat.digitChar (n % 10) :: acc) ?_ c hc
      intro c' hc'
      rcases List.mem_cons.mp hc' with rfl | hm
      · exact hd
      · exact hacc c' hm

/-- Helper: the decimal representation of a natural number contains no
underscore. -/
theorem repr_no_underscore (n : Nat) : ∀ c ∈ (Nat.repr n).data, c ≠ '_' :=
  toDigitsCore_no_underscore (n + 1) n [] (by intro c hc; cases hc)

/-- Helper: `digitVal` inverts `Nat.digitChar` on decimal digits. -/
theorem digitVal_digitChar : ∀ d < 10, digitVal (Nat.digitChar d) = d := by decide

/-- Helper: appending one digit multiplies the evaluation by ten and adds the
digit value. -/
theorem evalDigits_append_singleton (xs : List Char) (c : Char) :
    evalDigits (xs ++ [c]) = 10 * evalDigits xs + digitVal c := by
  simp [evalDigits, List.foldl_append]

/-- Helper: with enough fuel, evaluating the digits produced by
`Nat.toDigitsCore` recovers the number. -/
theorem evalDigits_toDigitsCore : ∀ (fuel n : Nat), n < fuel →
    evalDigits (Nat.toDigitsCore 10 fuel n []) = n := by
  intro fuel
  induction fuel with
  | zero => intro n h; exact absurd h (Nat.not_lt_zero n)
  | succ fuel ih =>
    intro n h
    simp only [Nat.toDigitsCore]
    have hmod : n % 10 < 10 := Nat.mod_lt n (by norm_num)
    by_cases h0 : n / 10 = 0
    · rw [if_pos h0]
      have hdm := Nat.div_add_mod n 10
      rw [h0] at hdm
      have h1 : evalDigits [Nat.digitChar (n % 10)] =
          digitVal (Nat.digitChar (n % 10)) := by
        simp [evalDigits]
      rw [h1, digitVal_digitChar (n % 10) hmod]
      omega
    · rw [if_neg h0]
      rw [toDigitsCore_acc 10 fuel (n / 10) [Nat.digitChar (n % 10)],
        evalDigits_append_singleton]
      have h1 : 0 < n := Nat.pos_of_ne_zero fun hz => h0 (by simp [hz])
      have h2 : n / 10 < n := Nat.div_lt_self h1 (by norm_num)
      rw [ih (n / 10) (by omega), digitVal_digitChar (n % 10) hmod]
      have hdm := Nat.div_add_mod n 10
      omega

/-- Helper: the decimal representation is injective. -/
theorem repr_injective (m n : Nat) (h : Nat.repr m = Nat.repr n) : m = n := by
  have hm : evalDigits (Nat.repr m).data = m :=
    evalDigits_toDigitsCore (m + 1) m (Nat.lt_succ_self m)
  have hn : evalDigits (Nat.repr n).data = n :=
    evalDigits_toDigitsCore (n + 1) n (Nat.lt_succ_self n)
  rw [h] at hm
  exact hm.symm.trans hn

/-- Helper: `takeWhile` stops exactly at the first failing element, so a clean
block followed by a failing element is recovered whole. -/
theorem takeWhile_append_of_forall (p : Char → Bool) :
    ∀ (a b : List Char) (c : Char), (∀ x ∈ a, p x = true) → p c = false →
    (a ++ c :: b).takeWhile p = a := by
  intro a
  induction a with
  | nil =>
    intro b c _ hc
    simp [List.takeWhile_cons, hc]
  | cons x a ih =>
    intro b c ha hc
    have hx : p x = true := ha x (List.mem_cons_self x a)
    simp [List.takeWhile_cons, hx,
      ih b c (fun y hy => ha y (List.mem_cons_of_mem x hy)) hc]

/-- Helper: a decimal prefix terminated by an underscore determines the
number: equal strings of that shape have equal indices. -/
theorem repr_underscore_inj (i j : Nat) (x y : List Char)
    (h : (Nat.repr i).data ++ '_' :: x = (Nat.repr j).data ++ '_' :: y) :
    i = j := by
  have hclean : ∀ n : Nat, ∀ z ∈ (Nat.repr n).data, (z != '_') = true := by
    intro n z hz
    simpa using repr_no_underscore n z hz
  have hi := takeWhile_append_of_forall (fun c => c != '_')
    (Nat.repr i).data x '_' (hclean i) (by simp)
  have hj := takeWhile_append_of_forall (fun c => c != '_')
    (Nat.repr j).data y '_' (hclean j) (by simp)
  have hdata : (Nat.repr i).data = (Nat.repr j).data := by
    rw [← hi, h, hj]
  exact repr_injective i j (String.ext hdata)

/-- Helper: archive paths built for different directory ordinals are always
distinct, whatever the directory basenames and relative paths. -/
theorem archivePath_index_inj (i j : Nat) (d1 d2 r1 r2 : String)
    (h : archivePath i d1 r1 = archivePath j d2 r2) : i = j := by
  have hd := congrArg String.data h
  have hu : ("_" : String).data = ['_'] := rfl
  have hs : sep.data = ['/'] := rfl
  simp only [archivePath, String.data_append, hu, hs, List.append_assoc,
    List.singleton_append] at hd
  exact repr_underscore_inj i j _ _ hd

/-- Helper: the paired dict-filling fold of `_ZipResources` splits into two
independent folds. -/
theorem zip_foldl_split (l : List (String × String)) (a b : List (String × String)) :
    l.foldl (fun acc e =>
      (dictInsert acc.1 e.1 e.2,
       if pyStartsWith e.2 tmpMarker then acc.2 else dictInsert acc.2 e.1 e.2)) (a, b) =
    (l.foldl (fun d e => dictInsert d e.1 e.2) a,
     l.foldl (fun d e =>
       if pyStartsWith e.2 tmpMarker then d else dictInsert d e.1 e.2) b) := by
  induction l generalizing a b with
  | nil => rfl
  | cons e l ih => rw [List.foldl_cons, List.foldl_cons, List.foldl_cons, ih]

/-- Helper: inserting a key absent from the dict appends the pair. -/
theorem dictInsert_of_not_mem (d : List (String × String)) (k v : String)
    (h : ∀ e ∈ d, e.1 ≠ k) : dictInsert d k v = d ++ [(k, v)] := by
  unfold dictInsert
  have hany : (d.any fun e => e.1 == k) = false := by
    rw [List.any_eq_false]
    intro e he
    simpa using h e he
  rw [hany]
  rfl

/-- Helper: folding dict insertion over pairs with pairwise-distinct keys
(also distinct from the accumulator's) just appends them in order. -/
theorem foldl_dictInsert_nodup : ∀ (l acc : List (String × String)),
    ((acc ++ l).map Prod.fst).Nodup →
    l.foldl (fun d e => dictInsert d e.1 e.2) acc = acc ++ l := by
  intro l
  induction l with
  | nil => intro acc _; simp
  | cons e l ih =>
    intro acc h
    have hknot : ∀ e' ∈ acc, e'.1 ≠ e.1 := by
      intro e' he' heq
      have h1 : e'.1 ∈ acc.map Prod.fst := List.mem_map.mpr ⟨e', he', rfl⟩
      have h2 : e.1 ∈ ((e :: l).map Prod.fst) :=
        List.mem_map.mpr ⟨e, List.mem_cons_self e l, rfl⟩
      rw [List.map_append] at h
      rcases List.nodup_append.mp h with ⟨_, _, hdisj⟩
      exact hdisj h1 (heq ▸ h2)
    have hre : (acc ++ [(e.1, e.2)]) ++ l = acc ++ e :: l := by simp
    rw [List.foldl_cons, dictInsert_of_not_mem acc e.1 e.2 hknot,
      ih (acc ++ [(e.1, e.2)]) (by rw [hre]; exact h), hre]

/-- Helper: a fold that skips temporary-location entries equals the plain
dict-insertion fold over the filtered list. -/
theorem foldl_skip_filter : ∀ (l acc : List (String × String)),
    l.foldl (fun d e =>
      if pyStartsWith e.2 tmpMarker then d else dictInsert d e.1 e.2) acc =
    (l.filter fun e => !(pyStartsWith e.2 tmpMarker)).foldl
      (fun d e => dictInsert d e.1 e.2) acc := by
  intro l
  induction l with
  | nil => intro acc; rfl
  | cons e l ih =>
    intro acc
    rw [List.foldl_cons]
    by_cases hp : pyStartsWith e.2 tmpMarker = true
    · rw [if_pos hp]
      simp only [List.filter_cons, hp, Bool.not_true, Bool.false_eq_true, if_false]
      exact ih acc
    · have hp' : pyStartsWith e.2 tmpMarker = false := Bool.eq_false_iff.mpr hp
      rw [if_neg hp]
      simp only [List.filter_cons, hp', Bool.not_false, if_true]
      rw [List.foldl_cons]
      exact ih (dictInsert acc e.1 e.2)

/-- C8: as long as the generated archive keys do not collide, the archive
holds every discovered entry, and the provenance record holds exactly the
archive entries whose original source path does not start with the temporary
location marker — provenance is the source-backed restriction of the archive
contents. -/
theorem c8_provenance_filter (fs : FS) (resource_dirs : List String)
    (ignore : String → Bool)
    (hnd : ((zipEntries fs resource_dirs ignore).map Prod.fst).Nodup) :
    (_ZipResources fs resource_dirs ignore).files_to_zip =
      zipEntries fs resource_dirs ignore ∧
    (_ZipResources fs resource_dirs ignore).files_to_zip_without_generated =
      ((_ZipResources fs resource_dirs ignore).files_to_zip.filter
        fun e => !(pyStartsWith e.2 tmpMarker)) := by
  have hfull : (zipEntries fs resource_dirs ignore).foldl
      (fun d e => dictInsert d e.1 e.2) [] = zipEntries fs resource_dirs ignore := by
    have h := foldl_dictInsert_nodup (zipEntries fs resource_dirs ignore) []
      (by simpa using hnd)
    simpa using h
  have hnd2 : (((zipEntries fs resource_dirs ignore).filter
      fun e => !(pyStartsWith e.2 tmpMarker)).map Prod.fst).Nodup :=
    List.Nodup.sublist ((List.filter_sublist _).map Prod.fst) hnd
  have hfil : (zipEntries fs resource_dirs ignore).foldl
      (fun d e => if pyStartsWith e.2 tmpMarker then d else dictInsert d e.1 e.2) [] =
      (zipEntries fs resource_dirs ignore).filter
        fun e => !(pyStartsWith e.2 tmpMarker) := by
    rw [foldl_skip_filter]
    have h := foldl_dictInsert_nodup ((zipEntries fs resource_dirs ignore).filter
      fun e => !(pyStartsWith e.2 tmpMarker)) [] (by simpa using hnd2)
    simpa using h
  constructor
  · show ((zipEntries fs resource_dirs ignore).foldl
      (fun acc e =>
        (dictInsert acc.1 e.1 e.2,
         if pyStartsWith e.2 tmpMarker then acc.2 else dictInsert acc.2 e.1 e.2))
      ([], [])).1 = zipEntries fs resource_dirs ignore
    rw [zip_foldl_split]
    exact hfull
  · show ((zipEntries fs resource_dirs ignore).foldl
      (fun acc e =>
        (dictInsert acc.1 e.1 e.2,
         if pyStartsWith e.2 tmpMarker then acc.2 else dictInsert acc.2 e.1 e.2))
      ([], [])).2 =
      ((_ZipResources fs resource_dirs ignore).files_to_zip.filter
        fun e => !(pyStartsWith e.2 tmpMarker))
    rw [zip_foldl_split]
    show _ = (((zipEntries fs resource_dirs ignore).foldl
      (fun acc e =>
        (dictInsert acc.1 e.1 e.2,
         if pyStartsWith e.2 tmpMarker then acc.2 else dictInsert acc.2 e.1 e.2))
      ([], [])).1.filter fun e => !(pyStartsWith e.2 tmpMarker))
    rw [zip_foldl_split]
    simp only [hfull, hfil]

/-- Witness for C8: in the two-root scenario with a source-backed root A and a
generated root under /tmp, the archive holds both entries and provenance is
the non-temporary restriction. -/
theorem c8_witness :
    (_ZipResources c8fs ["A", "/tmp/gen"] noIgnore).files_to_zip =
      zipEntries c8fs ["A", "/tmp/gen"] noIgnore ∧
    (_ZipResources c8fs ["A", "/tmp/gen"] noIgnore).files_to_zip_without_generated =
      ((_ZipResources c8fs ["A", "/tmp/gen"] noIgnore).files_to_zip.filter
        fun e => !(pyStartsWith e.2 tmpMarker)) :=
  c8_provenance_filter c8fs ["A", "/tmp/gen"] noIgnore (by decide)

/-- C3: every file discovered in the directory of ordinal i is mapped into
the archive under the path made of the ordinal, the directory basename and
the relative path; paths built for distinct ordinals can never collide, even
when two roots share a basename; and in the concrete two-directory scenario
the archive retains both foo.xml entries, 0_A/foo.xml backed by the v1 source
and 1_B/foo.xml backed by the v2 source. -/
theorem c3_archive_paths_namespaced (fs : FS) (resource_dirs : List String)
    (ignore : String → Bool) :
    (∀ (i : Nat) (d rel : String), resource_dirs[i]? = some d →
      rel ∈ fs.files d → ignore rel = false →
      (archivePath i d rel, d ++ sep ++ rel) ∈ zipEntries fs resource_dirs ignore) ∧
    (∀ (i j : Nat) (d1 d2 r1 r2 : String), i ≠ j →
      archivePath i d1 r1 ≠ archivePath j d2 r2) ∧
    ((_ZipResources c3fs ["A", "B"] noIgnore).files_to_zip =
      [(archivePath 0 "A" "foo.xml", "A/foo.xml"),
       (archivePath 1 "B" "foo.xml", "B/foo.xml")] ∧
     archivePath 0 "A" "foo.xml" = "0_A/foo.xml" ∧
     archivePath 1 "B" "foo.xml" = "1_B/foo.xml" ∧
     c3fs.content "A/foo.xml" = some "v1" ∧
     c3fs.content "B/foo.xml" = some "v2") := by
  refine ⟨?_, ?_, by decide⟩
  · intro i d rel hget hf hig
    unfold zipEntries
    rw [List.mem_flatMap]
    refine ⟨(i, d), List.mk_mem_enum_iff_getElem?.mpr hget, ?_⟩
    rw [List.mem_map]
    refine ⟨(d ++ sep ++ rel, rel), ?_, rfl⟩
    unfold IterResourceFilesInDirectories
    simp only [List.flatMap_cons, List.flatMap_nil, List.append_nil]
    rw [List.mem_map]
    refine ⟨rel, ?_, rfl⟩
    rw [List.mem_filter]
    exact ⟨hf, by rw [hig]; rfl⟩
  · intro i j d1 d2 r1 r2 hij heq
    exact hij (archivePath_index_inj i j d1 d2 r1 r2 heq)

/-- Witness for C3: both scenario entries are members of the collected
entries, and their archive paths differ. -/
theorem c3_witness :
    (archivePath 0 "A" "foo.xml", "A" ++ sep ++ "foo.xml") ∈
      zipEntries c3fs ["A", "B"] noIgnore ∧
    (archivePath 1 "B" "foo.xml", "B" ++ sep ++ "foo.xml") ∈
      zipEntries c3fs ["A", "B"] noIgnore ∧
    archivePath 0 "A" "foo.xml" ≠ archivePath 1 "B" "foo.xml" :=
  ⟨(c3_archive_paths_namespaced c3fs ["A", "B"] noIgnore).1 0 "A" "foo.xml"
      rfl (by decide) rfl,
   (c3_archive_paths_namespaced c3fs ["A", "B"] noIgnore).1 1 "B" "foo.xml"
      rfl (by decide) rfl,
   (c3_archive_paths_namespaced c3fs ["A", "B"] noIgnore).2.1 0 1 "A" "B"
      "foo.xml" "foo.xml" (by decide)⟩

end PrepareRes
